import Mathlib

/-!
Verification of the CohpyIntro roster program (src/CohpyIntro.py).

The program keeps a roster of members in a single SQLite table
`members(first, last, introducedDate)` keyed by the implicit SQLite
`rowid`, and renders tables of rows as padded text lines.

Shallow embedding:
* a stored row is `Row` (rowid plus the three columns);
* the members table is a `Store`, a list of rows in insertion order;
* the backing database file is `DbFile := Option Store` — `none` means the
  `members` table does not exist yet in the file's catalog, `some s` means
  it exists and holds the rows `s`;
* SQLite's INSERT assigns the fresh rowid `max existing rowid + 1`
  (`freshRowid`), `SELECT ... ORDER BY rowid` is a sort by rowid,
  `SELECT ... WHERE rowid = ?` is a filter, and
  `UPDATE ... WHERE rowid = ?` rewrites exactly the matching rows;
* the Python generator `formatTable` becomes a function returning the
  list of lines yielded before any raised width-mismatch exception,
  paired with an `Option RowWidthMismatch` describing that exception.

All Python methods here are pure: `Roster.add` returns the pair of the
method's Python return value (always `None` — the method has no `return`
statement) and the post-state of the table.
-/

/-- One stored row of the `members` table, in the column order used by the
program's SELECT statements: rowid, first, last, introducedDate.
`introducedDate` is `none` when the column is SQL NULL. -/
structure Row where
  rowid : Nat
  first : String
  last : String
  introducedDate : Option String
deriving DecidableEq, Repr

/-- The in-memory `Member` object (CohpyIntro.py lines 50-65): `__init__`
takes first and last and sets `rowid` and `introducedDate` to `None`. -/
structure Member where
  first : String
  last : String
  rowid : Option Nat
  introducedDate : Option String
deriving DecidableEq, Repr

/-- Member.__init__(first, last): rowid and introducedDate start unset. -/
def Member.init (first last : String) : Member :=
  ⟨first, last, none, none⟩

/-- The `members` table: its rows in insertion order. -/
abbrev Store := List Row

/-- The database file behind a Roster: `none` when the catalog has no
`members` table, `some s` when the table exists with rows `s`. -/
abbrev DbFile := Option Store

namespace Roster

/-- buildMember (lines 101-105): Member(row[1], row[2]) with
member.rowid = row[0] and member.introducedDate = row[3]. -/
def buildMember (r : Row) : Member :=
  ⟨r.first, r.last, some r.rowid, r.introducedDate⟩

/-- The rowid SQLite assigns to the next INSERT into `members`: one more
than the largest rowid currently in the table (1 for an empty table). -/
def freshRowid (s : Store) : Nat :=
  (s.map Row.rowid).foldr max 0 + 1

/-- createTables (lines 80-94): query `sqlite_master` for a table named
`members`; if a row comes back, return early; otherwise CREATE TABLE
`members`, which makes the table exist with no rows. -/
def createTables (db : DbFile) : DbFile :=
  match db with
  | some s => some s
  | none => some ([] : Store)

/-- add (lines 119-130): INSERT the member's first, last and
introducedDate (the rowid column is not in the INSERT's column list, so
SQLite assigns the fresh rowid), then commit. The method body never reads
or writes `member.rowid` and has no `return` statement, so its Python
return value is `None`: the first component of the result is that return
value, the second the table afterwards. -/
def add (s : Store) (m : Member) : Option Member × Store :=
  (none, s ++ [⟨freshRowid s, m.first, m.last, m.introducedDate⟩])

/-- get (lines 132-140): SELECT the rows WHERE rowid = ?; if none match,
return `None`, else buildMember of the first matching row. -/
def get (s : Store) (rowid : Nat) : Option Member :=
  match s.filter (fun r => r.rowid == rowid) with
  | [] => none
  | r :: _ => some (buildMember r)

/-- update (lines 142-153): UPDATE first, last, introducedDate WHERE
rowid = member.rowid. A row is rewritten exactly when its rowid equals
the member's (a member whose rowid is unset matches no row, as SQL
`rowid = NULL` matches nothing); the rowid column itself is not in the
SET list, so it is unchanged. No exception is raised when no row
matches: the statement simply affects zero rows. -/
def update (s : Store) (m : Member) : Store :=
  s.map fun r =>
    if some r.rowid = m.rowid then
      { r with first := m.first, last := m.last,
               introducedDate := m.introducedDate }
    else r

/-- Comparison used by `ORDER BY rowid`. -/
def rowLE (a b : Row) : Prop := a.rowid ≤ b.rowid

instance : DecidableRel rowLE := fun a b => Nat.decLe a.rowid b.rowid

instance : IsTotal Row rowLE := ⟨fun a b => Nat.le_total a.rowid b.rowid⟩

instance : IsTrans Row rowLE := ⟨fun _ _ _ h1 h2 => Nat.le_trans h1 h2⟩

/-- list (lines 107-117): SELECT rowid, first, last, introducedDate FROM
members ORDER BY rowid, then buildMember for each row. Reading the table
and returning the member list is all it does: the function takes the
store and returns only the list, so it cannot change the store. -/
def list (s : Store) : List Member :=
  (List.insertionSort rowLE s).map buildMember

end Roster

namespace CohpyIntro

/-- ColumnFormat (line 13): a column label paired with a display width. -/
structure ColumnFormat where
  name : String
  width : Nat
deriving DecidableEq, Repr

/-- A cell value handed to formatTable; the program passes integers
(rowids) and strings (names, dates). `str()` of each is `cellStr`. -/
inductive Cell where
  | str (s : String)
  | nat (n : Nat)
deriving DecidableEq, Repr

/-- Python str() on a cell value. -/
def cellStr : Cell → String
  | .str s => s
  | .nat n => Nat.repr n

/-- Python str.ljust(w): pad on the right with spaces to width `w`;
a string already at least `w` characters long is returned unchanged. -/
def ljust (s : String) (w : Nat) : String :=
  String.mk (s.data ++ List.replicate (w - s.data.length) ' ')

/-- The data carried by the exception formatTable raises on a row of the
wrong width (lines 28-30): `'Row %d contains %d columns.  Expected %d
columns' % (i, len(row), columnCount)`. -/
structure RowWidthMismatch where
  rowIndex : Nat
  actual : Nat
  expected : Nat
deriving DecidableEq, Repr

/-- The default column separator, kwargs.get('colsep', '   '). -/
def defaultColsep : String := "   "

/-- The loop of formatTable (lines 26-48) in the branch where
columnFormats is present and non-empty (columnCount >= 1): for each row,
first the width check (line 28) — a mismatch raises, producing no
further lines — then, on the first row only, the heading and underline
lines (lines 32-39), then the row's own padded line (lines 41-48).
The result pairs the lines yielded with the exception, if one was
raised. -/
def formatWithFormats (formats : List ColumnFormat) (colsep : String) :
    Nat → List (List Cell) → List String × Option RowWidthMismatch
  | _, [] => ([], none)
  | i, row :: rest =>
    if row.length ≠ formats.length then
      ([], some ⟨i, row.length, formats.length⟩)
    else
      let headerPart : List String :=
        if i = 0 then
          [String.intercalate colsep
            (formats.map fun f => ljust f.name f.width),
           String.intercalate colsep
            (formats.map fun f => String.mk (List.replicate f.width '-'))]
        else []
      let line := String.intercalate colsep
        (List.zipWith (fun c f => ljust (cellStr c) f.width) row formats)
      let out := formatWithFormats formats colsep (i + 1) rest
      (headerPart ++ line :: out.1, out.2)

/-- formatTable (lines 15-48). Lines 20-24 set columnCount to -1 unless
columnFormats is given and non-empty; with columnCount < 1 every cell is
padded to defaultColWidth and no width check or header is made, with
columnCount >= 1 the loop `formatWithFormats` runs from index 0. -/
def formatTable (rows : List (List Cell))
    (columnFormats : Option (List ColumnFormat))
    (colsep : String) (defaultColWidth : Nat) :
    List String × Option RowWidthMismatch :=
  match columnFormats with
  | none =>
    (rows.map fun row =>
      String.intercalate colsep
        (row.map fun c => ljust (cellStr c) defaultColWidth), none)
  | some formats =>
    if formats.length = 0 then
      (rows.map fun row =>
        String.intercalate colsep
          (row.map fun c => ljust (cellStr c) defaultColWidth), none)
    else
      formatWithFormats formats colsep 0 rows

end CohpyIntro

namespace Roster

lemma le_foldr_max (l : List Nat) (x : Nat) (hx : x ∈ l) : x ≤ l.foldr max 0 := by
  induction l with
  | nil => cases hx
  | cons a t ih =>
    rcases List.mem_cons.mp hx with h | h
    · subst h; exact Nat.le_max_left _ _
    · exact Nat.le_trans (ih h) (Nat.le_max_right _ _)

lemma rowid_lt_freshRowid (s : Store) (r : Row) (hr : r ∈ s) :
    r.rowid < freshRowid s :=
  Nat.lt_succ_of_le (le_foldr_max _ _ (List.mem_map_of_mem Row.rowid hr))

lemma filter_fresh_eq_nil (s : Store) :
    s.filter (fun r => r.rowid == freshRowid s) = [] := by
  refine List.filter_eq_nil_iff.mpr (fun r hr => ?_)
  simp only [beq_iff_eq]
  exact Nat.ne_of_lt (rowid_lt_freshRowid s r hr)

lemma get_add_fresh (s : Store) (m : Member) :
    get (add s m).2 (freshRowid s) =
      some ⟨m.first, m.last, some (freshRowid s), m.introducedDate⟩ := by
  unfold get add
  rw [List.filter_append, filter_fresh_eq_nil]
  simp [buildMember]

lemma orderedInsert_append_single (x b : Row) (t : List Row) (hxb : rowLE x b) :
    List.orderedInsert rowLE x (t ++ [b]) =
      List.orderedInsert rowLE x t ++ [b] := by
  induction t with
  | nil => simp [List.orderedInsert, if_pos hxb]
  | cons a t ih =>
    by_cases h : rowLE x a
    · simp [List.orderedInsert, if_pos h]
    · simp [List.orderedInsert, if_neg h, ih]

lemma insertionSort_append_single (s : Store) (b : Row)
    (hb : ∀ x ∈ s, rowLE x b) :
    List.insertionSort rowLE (s ++ [b]) =
      List.insertionSort rowLE s ++ [b] := by
  induction s with
  | nil => simp [List.insertionSort, List.orderedInsert]
  | cons a t ih =>
    have ha : rowLE a b := hb a (List.mem_cons_self a t)
    have ht : ∀ x ∈ t, rowLE x b := fun x hx => hb x (List.mem_cons_of_mem a hx)
    show List.orderedInsert rowLE a (List.insertionSort rowLE (t ++ [b])) =
      List.orderedInsert rowLE a (List.insertionSort rowLE t) ++ [b]
    rw [ih ht]
    exact orderedInsert_append_single a b _ ha

lemma list_add (s : Store) (m : Member) :
    list (add s m).2 =
      list s ++ [⟨m.first, m.last, some (freshRowid s), m.introducedDate⟩] := by
  unfold list add
  rw [insertionSort_append_single s _
    (fun x hx => Nat.le_of_lt (rowid_lt_freshRowid s x hx))]
  simp [buildMember]

end Roster

namespace CohpyIntro

lemma formatWithFormats_first_bad (formats : List ColumnFormat) (colsep : String)
    (rows : List (List Cell)) :
    ∀ (k i : Nat), i < rows.length →
      (∀ j, j < i → (rows.getD j []).length = formats.length) →
      (rows.getD i []).length ≠ formats.length →
      (formatWithFormats formats colsep k rows).2 =
        some ⟨k + i, (rows.getD i []).length, formats.length⟩ ∧
      (formatWithFormats formats colsep k rows).1.length =
        i + (if k = 0 ∧ 0 < i then 2 else 0) := by
  induction rows with
  | nil =>
    intro k i hi _ _
    simp at hi
  | cons row rest ih =>
    intro k i hi hok hbad
    cases i with
    | zero =>
      have hbad0 : row.length ≠ formats.length := by simpa using hbad
      rw [formatWithFormats, if_pos hbad0]
      simp
    | succ i2 =>
      have hrow : row.length = formats.length := by
        simpa using hok 0 (Nat.succ_pos i2)
      have hres := ih (k + 1) i2 (by simpa using hi)
        (fun j hj => by simpa using hok (j + 1) (Nat.succ_lt_succ hj))
        (by simpa using hbad)
      rw [formatWithFormats, if_neg (not_not_intro hrow)]
      constructor
      · simp only []
        rw [hres.1]
        have : k + 1 + i2 = k + (i2 + 1) := by omega
        simp [this]
      · simp only [List.length_append, List.length_cons, hres.2]
        by_cases hk : k = 0 <;> simp [hk] <;> omega

end CohpyIntro

/-- C1 counterexample: the claim says `add(m)` returns a member with a
newly assigned id; on the concrete call `add` of a fresh member to an
empty store, the Python return value of `Roster.add` is `None` (the
method has no return statement and never writes `member.rowid`), not a
member carrying the new id. -/
theorem c1_counterexample :
    (Roster.add [] (Member.init "Ada" "Lovelace")).1 = none := rfl

/-- C1 (amended): for every member m, `add(m)` returns None; the inserted
row is assigned a fresh id distinct from every existing row's id, `get`
on that id returns a member field-wise equal to m carrying the new id,
and a subsequent `list()` is the previous listing with that member
appended, hence includes it in id order. -/
theorem c1_add_assigns_fresh_id (s : Store) (m : Member) :
    (Roster.add s m).1 = none ∧
    (∀ r ∈ s, r.rowid ≠ Roster.freshRowid s) ∧
    Roster.get (Roster.add s m).2 (Roster.freshRowid s) =
      some ⟨m.first, m.last, some (Roster.freshRowid s), m.introducedDate⟩ ∧
    Roster.list (Roster.add s m).2 =
      Roster.list s ++
        [⟨m.first, m.last, some (Roster.freshRowid s), m.introducedDate⟩] :=
  ⟨rfl, fun r hr => Nat.ne_of_lt (Roster.rowid_lt_freshRowid s r hr),
   Roster.get_add_fresh s m, Roster.list_add s m⟩

/-- C2 counterexample: the claim says `update` on a member whose id
matches no row fails with a NotFound error; on the concrete store holding
only the row with rowid 1, `update` with a member whose rowid is 2
returns the store unchanged — a silent no-op, and `Roster.update` (like
the Python method, whose UPDATE statement simply matches zero rows) has
no failure outcome at all. -/
theorem c2_counterexample :
    Roster.update [⟨1, "Ada", "Lovelace", none⟩]
        ⟨"Alan", "Turing", some 2, none⟩ =
      [⟨1, "Ada", "Lovelace", none⟩] := rfl

/-- C2 (amended): `update(member)` with an id matching no existing row is
a silent no-op (the store is unchanged and no NotFound error is raised);
every row's id is unchanged by update; and every row whose id matches the
member's is overwritten with the member's first, last and introducedDate,
its id kept. -/
theorem c2_update_stale_silent_matching_overwrites (s : Store) (m : Member) :
    ((∀ r ∈ s, some r.rowid ≠ m.rowid) → Roster.update s m = s) ∧
    (Roster.update s m).map Row.rowid = s.map Row.rowid ∧
    (∀ r ∈ s, some r.rowid = m.rowid →
      (⟨r.rowid, m.first, m.last, m.introducedDate⟩ : Row) ∈
        Roster.update s m) := by
  refine ⟨?_, ?_, ?_⟩
  · intro h
    unfold Roster.update
    have : ∀ r ∈ s,
        (if some r.rowid = m.rowid then
          { r with first := m.first, last := m.last,
                   introducedDate := m.introducedDate } else r) = r :=
      fun r hr => if_neg (h r hr)
    rw [List.map_congr_left this]
    simp
  · unfold Roster.update
    rw [List.map_map]
    refine List.map_congr_left (fun r _ => ?_)
    by_cases h : some r.rowid = m.rowid <;> simp [h]
  · intro r hr h
    unfold Roster.update
    refine List.mem_map.mpr ⟨r, hr, ?_⟩
    simp [h]

/-- C3 counterexample: the claim says `add` of a member that already has
an identifier fails with InvalidArgument and inserts no row; on the
concrete call adding a member whose rowid is already `some 7` to an empty
store, the table afterwards holds one row — a row was inserted, and
`Roster.add` (like the Python method, which never reads `member.rowid`)
has no failure outcome at all. -/
theorem c3_counterexample :
    (Roster.add [] ⟨"Ada", "Lovelace", some 7, none⟩).2 =
      [⟨1, "Ada", "Lovelace", none⟩] := rfl

/-- C3 (amended): `add(member)` on a member that already has an
identifier set raises no InvalidArgument error: it ignores the set
identifier and inserts a new row with the fresh store-assigned rowid,
exactly as for a member with no identifier, returning None. -/
theorem c3_add_ignores_set_id (s : Store) (m : Member) (id0 : Nat)
    (h : m.rowid = some id0) :
    (Roster.add s m).1 = none ∧
    (Roster.add s m).2 =
      s ++ [⟨Roster.freshRowid s, m.first, m.last, m.introducedDate⟩] :=
  ⟨rfl, rfl⟩

/-- C3 witness: the amended theorem applied to the empty store and a
member whose identifier is already set to 7. -/
theorem c3_witness :
    (⟨"Ada", "Lovelace", some 7, none⟩ : Member).rowid = some 7 ∧
    (Roster.add [] ⟨"Ada", "Lovelace", some 7, none⟩).2 =
      [⟨1, "Ada", "Lovelace", none⟩] :=
  ⟨rfl, (c3_add_ignores_set_id [] ⟨"Ada", "Lovelace", some 7, none⟩ 7 rfl).2⟩

/-- C4: `get` never fails: on the empty store it returns `none` for every
id; on any store where no row carries the id it returns `none`; and when
a row with the id is in the store (and it is the only one, as rowids are
unique in SQLite), `get` returns exactly that row's member. The embedded
`Roster.get` is a total function into `Option Member`, mirroring that the
Python method returns a value on every input and raises nothing. -/
theorem c4_get_not_found_never_fails (s : Store) (id : Nat) :
    Roster.get ([] : Store) id = none ∧
    ((∀ r ∈ s, r.rowid ≠ id) → Roster.get s id = none) ∧
    (∀ r ∈ s, r.rowid = id → (∀ p ∈ s, p.rowid = id → p = r) →
      Roster.get s id = some (Roster.buildMember r)) := by
  refine ⟨rfl, ?_, ?_⟩
  · intro h
    unfold Roster.get
    have hnil : s.filter (fun r => r.rowid == id) = [] :=
      List.filter_eq_nil_iff.mpr (fun r hr => by simp [h r hr])
    rw [hnil]
  · intro r hr hrid huniq
    have hmem : r ∈ s.filter (fun p => p.rowid == id) :=
      List.mem_filter.mpr ⟨hr, by simp [hrid]⟩
    unfold Roster.get
    cases hfil : s.filter (fun p => p.rowid == id) with
    | nil =>
      rw [hfil] at hmem
      cases hmem
    | cons a t =>
      have ha : a ∈ s.filter (fun p => p.rowid == id) := by
        rw [hfil]
        exact List.mem_cons_self a t
      have haid : a.rowid = id := by
        simpa using (List.mem_filter.mp ha).2
      have har : a = r := huniq a (List.mem_filter.mp ha).1 haid
      rw [har]

/-- Roster.get restated: None on no match else the first matching row is
the head of the filtered rows. -/
lemma get_eq_head (s : Store) (id : Nat) :
    Roster.get s id =
      ((s.filter (fun r => r.rowid == id)).head?).map Roster.buildMember := by
  unfold Roster.get
  cases s.filter (fun r => r.rowid == id) <;> rfl

/-- C5: the round-trip law. If some row carries the id, then after
`update` with a member carrying that id and any first, last and
introducedDate, `get` on the same id returns exactly those fields with
the id unchanged. -/
theorem c5_update_get_round_trip (s : Store) (id : Nat) (fst lst : String)
    (d : Option String) (h : ∃ r ∈ s, r.rowid = id) :
    Roster.get (Roster.update s ⟨fst, lst, some id, d⟩) id =
      some ⟨fst, lst, some id, d⟩ := by
  obtain ⟨r, hr, hrid⟩ := h
  set g : Row → Row := fun p =>
    if some p.rowid = (⟨fst, lst, some id, d⟩ : Member).rowid then
      { p with first := fst, last := lst, introducedDate := d }
    else p with hg
  have hupd : Roster.update s ⟨fst, lst, some id, d⟩ = s.map g := rfl
  have hpres : ∀ p : Row, (g p).rowid = p.rowid := by
    intro p
    rw [hg]
    dsimp only
    split <;> rfl
  rw [get_eq_head, hupd, List.filter_map]
  have hfil : s.filter ((fun r => r.rowid == id) ∘ g) =
      s.filter (fun r => r.rowid == id) :=
    List.filter_congr (fun p _ => by simp [Function.comp, hpres p])
  rw [hfil]
  have hmem : r ∈ s.filter (fun p => p.rowid == id) :=
    List.mem_filter.mpr ⟨hr, by simp [hrid]⟩
  cases hfl : s.filter (fun p => p.rowid == id) with
  | nil =>
    rw [hfl] at hmem
    cases hmem
  | cons a t =>
    have ha : a ∈ s.filter (fun p => p.rowid == id) := by
      rw [hfl]
      exact List.mem_cons_self a t
    have haid : a.rowid = id := by
      simpa using (List.mem_filter.mp ha).2
    have hga : g a = { a with first := fst, last := lst, introducedDate := d } := by
      simp [hg, haid]
    simp [hga, Roster.buildMember, haid]

/-- C5 witness: the round-trip theorem applied to a one-row store with
rowid 1 and a full overwrite of the fields. -/
theorem c5_witness :
    (∃ r ∈ [(⟨1, "Ada", "Lovelace", none⟩ : Row)], r.rowid = 1) ∧
    Roster.get (Roster.update [⟨1, "Ada", "Lovelace", none⟩]
        ⟨"Grace", "Hopper", some 1, some "2026-01-01"⟩) 1 =
      some ⟨"Grace", "Hopper", some 1, some "2026-01-01"⟩ :=
  ⟨⟨⟨1, "Ada", "Lovelace", none⟩, List.mem_singleton.mpr rfl, rfl⟩,
   c5_update_get_round_trip [⟨1, "Ada", "Lovelace", none⟩] 1 "Grace"
     "Hopper" (some "2026-01-01")
     ⟨⟨1, "Ada", "Lovelace", none⟩, List.mem_singleton.mpr rfl, rfl⟩⟩

/-- C6: `list()` on the empty store is the empty sequence; on every store
it is sorted in non-decreasing id order and is a permutation of the
members built from all stored rows (it returns all members, touching
nothing: the embedded `Roster.list` consumes the store and returns only
the member list). -/
theorem c6_list_ordered_complete (s : Store) :
    Roster.list ([] : Store) = [] ∧
    List.Sorted (fun a b : Member => a.rowid.getD 0 ≤ b.rowid.getD 0)
      (Roster.list s) ∧
    List.Perm (Roster.list s) (s.map Roster.buildMember) := by
  refine ⟨rfl, ?_, ?_⟩
  · have hs := List.sorted_insertionSort Roster.rowLE s
    exact List.Pairwise.map Roster.buildMember
      (fun a b hab => by simpa [Roster.buildMember] using hab) hs
  · exact List.Perm.map Roster.buildMember (List.perm_insertionSort Roster.rowLE s)

/-- C7: schema creation is idempotent and never wipes: `createTables` on
a file whose catalog already has the members table leaves it exactly as
it is, applying it twice is the same as applying it once, and the rows of
a store persisted by one session are still listed unchanged after a
second session opens the same file. -/
theorem c7_createTables_idempotent (s : Store) (db : DbFile) :
    Roster.createTables (some s) = some s ∧
    Roster.createTables (Roster.createTables db) = Roster.createTables db ∧
    (Roster.createTables (some s)).map Roster.list = some (Roster.list s) := by
  refine ⟨rfl, ?_, rfl⟩
  cases db <;> rfl

namespace CohpyIntro

/-- formatTable with a present, non-empty columnFormats runs the loop
from index 0. -/
lemma formatTable_some (rows : List (List Cell))
    (formats : List ColumnFormat) (colsep : String) (dcw : Nat)
    (hlen : ¬ formats.length = 0) :
    formatTable rows (some formats) colsep dcw =
      formatWithFormats formats colsep 0 rows := by
  simp only [formatTable]
  rw [if_neg hlen]

/-- C8: with a non-empty columnFormats, any row whose column count
differs from the number of formats makes formatTable raise a width
mismatch identifying that row's 0-based index and the actual versus
expected counts, with no line produced for the malformed row: whenever
the rows before index i are all well-formed and row i is not, the error
carries ⟨i, actual, expected⟩ and the lines produced are exactly those
for the preceding rows (none when i = 0, the two header lines plus the
i data lines otherwise) — the check runs for every row, not only the
first. -/
theorem c8_row_width_mismatch_every_row (formats : List ColumnFormat)
    (colsep : String) (dcw : Nat) (rows : List (List Cell)) (i : Nat)
    (hne : formats ≠ []) (hi : i < rows.length)
    (hok : ∀ j, j < i → (rows.getD j []).length = formats.length)
    (hbad : (rows.getD i []).length ≠ formats.length) :
    (formatTable rows (some formats) colsep dcw).2 =
      some ⟨i, (rows.getD i []).length, formats.length⟩ ∧
    (formatTable rows (some formats) colsep dcw).1.length =
      i + (if i = 0 then 0 else 2) := by
  have hlen : ¬ formats.length = 0 := by
    simpa [List.length_eq_zero] using hne
  have h := formatWithFormats_first_bad formats colsep rows 0 i hi hok hbad
  rw [formatTable_some rows formats colsep dcw hlen]
  refine ⟨by simpa using h.1, ?_⟩
  rw [h.2]
  cases i with
  | zero => simp
  | succ n => simp

/-- C8 witness: the theorem applied to the spec's own example, a single
row [1, 'Ann', 'extra'] of 3 columns against 2 declared formats: the
mismatch reports row index 0, actual 3, expected 2, and no line is
produced. -/
theorem c8_witness :
    (([[Cell.nat 1, Cell.str "Ann", Cell.str "extra"]].getD 0
        ([] : List Cell)).length ≠
      ([⟨"id", 4⟩, ⟨"name", 10⟩] : List ColumnFormat).length) ∧
    (formatTable [[Cell.nat 1, Cell.str "Ann", Cell.str "extra"]]
        (some [⟨"id", 4⟩, ⟨"name", 10⟩]) defaultColsep 20).2 =
      some ⟨0, 3, 2⟩ ∧
    (formatTable [[Cell.nat 1, Cell.str "Ann", Cell.str "extra"]]
        (some [⟨"id", 4⟩, ⟨"name", 10⟩]) defaultColsep 20).1.length = 0 := by
  have h := c8_row_width_mismatch_every_row [⟨"id", 4⟩, ⟨"name", 10⟩]
    defaultColsep 20 [[Cell.nat 1, Cell.str "Ann", Cell.str "extra"]] 0
    (by decide) (by decide) (fun j hj => absurd hj (Nat.not_lt_zero j))
    (by decide)
  exact ⟨by decide, by simpa using h.1, by simpa using h.2⟩

/-- C9: with non-empty columnFormats and a well-formed first row,
formatTable produces, before the first data line, exactly the label line
(each name left-justified to its width, joined by colsep) and the
underline line (width dashes per column, same separator); ljust never
truncates a value already at least as wide as its column; and on the
spec's example (formats id/4 and name/10, rows [1,'Ann'] and [2,'Bob'],
default separator) the output is exactly these 4 lines. -/
theorem c9_header_lines_then_data (formats : List ColumnFormat)
    (colsep : String) (dcw : Nat) (row : List Cell)
    (rest : List (List Cell)) (hne : formats ≠ [])
    (hw : row.length = formats.length) :
    (formatTable (row :: rest) (some formats) colsep dcw).1.take 2 =
      [String.intercalate colsep (formats.map fun f => ljust f.name f.width),
       String.intercalate colsep
         (formats.map fun f => String.mk (List.replicate f.width '-'))] ∧
    (∀ (s : String) (w : Nat), w ≤ s.data.length → ljust s w = s) ∧
    (formatTable [[Cell.nat 1, Cell.str "Ann"], [Cell.nat 2, Cell.str "Bob"]]
        (some [⟨"id", 4⟩, ⟨"name", 10⟩]) defaultColsep 20).1 =
      ["id     name      ", "----   ----------",
       "1      Ann       ", "2      Bob       "] := by
  have hlen : ¬ formats.length = 0 := by
    simpa [List.length_eq_zero] using hne
  refine ⟨?_, ?_, by decide⟩
  · rw [formatTable_some (row :: rest) formats colsep dcw hlen,
      formatWithFormats, if_neg (not_not_intro hw)]
    simp
  · intro s w hle
    have hz : w - s.data.length = 0 := Nat.sub_eq_zero_of_le hle
    cases s with
    | mk data => simp [ljust, hz]

/-- C9 witness: the theorem applied to the example's first row: the first
two produced lines are the label line and the underline line. -/
theorem c9_witness :
    (([Cell.nat 1, Cell.str "Ann"] : List Cell).length =
      ([⟨"id", 4⟩, ⟨"name", 10⟩] : List ColumnFormat).length) ∧
    (formatTable ([Cell.nat 1, Cell.str "Ann"] :: [[Cell.nat 2, Cell.str "Bob"]])
        (some [⟨"id", 4⟩, ⟨"name", 10⟩]) defaultColsep 20).1.take 2 =
      ["id     name      ", "----   ----------"] := by
  have h := c9_header_lines_then_data [⟨"id", 4⟩, ⟨"name", 10⟩]
    defaultColsep 20 [Cell.nat 1, Cell.str "Ann"] [[Cell.nat 2, Cell.str "Bob"]]
    (by decide) (by decide)
  refine ⟨by decide, ?_⟩
  rw [h.1]
  decide

/-- C10: with a non-empty columnFormats and no rows at all, formatTable
produces no lines and no error: the header lines are only emitted
together with the first row, so an empty row source yields an empty
output sequence rather than a header-only table. -/
theorem c10_empty_rows_empty_output (formats : List ColumnFormat)
    (colsep : String) (dcw : Nat) (hne : formats ≠ []) :
    formatTable [] (some formats) colsep dcw = ([], none) := by
  have hlen : ¬ formats.length = 0 := by
    simpa [List.length_eq_zero] using hne
  rw [formatTable_some [] formats colsep dcw hlen]
  rfl

/-- C10 witness: the theorem applied to a concrete one-column format. -/
theorem c10_witness :
    (([⟨"id", 4⟩] : List ColumnFormat) ≠ []) ∧
    formatTable [] (some [⟨"id", 4⟩]) defaultColsep 20 = ([], none) :=
  ⟨by decide, c10_empty_rows_empty_output [⟨"id", 4⟩] defaultColsep 20
    (by decide)⟩

end CohpyIntro
